import Mathlib

/-!
Shallow embedding of the descriptor-and-miniscript pipeline of
`src/index.ts` (the only source file of the repository).

JavaScript strings are modelled as `List Char`; JavaScript numbers used as
indices are modelled by `JSNumber` (an integer or a non-integral value);
`undefined`-able values are modelled by `Option`.  Buffers are modelled as
their hex strings (`List Char`) when they hold key material or signatures,
and as `List Nat` (byte lists) when they hold compiled scripts.

External collaborators (the miniscript compiler and satisfier, bitcoinjs-lib
payments, address decoding and script assembly, BIP32 key parsing from the
missing `keyExpressions.ts`, the checksum from the missing `checksum.ts`,
the key-expression regular expression from the missing `re.ts`) are
abstracted into an explicit environment `Env`, following the spec, which
treats them as opaque capabilities.
-/

/-- A JavaScript string, modelled as its list of characters. -/
abbrev Str := List Char

/-- Coerce a Lean string literal to the `Str` model. -/
def str (s : String) : Str := s.toList

/-- A JavaScript number passed as a descriptor index: either an integer or
some non-integral value (for which `Number.isInteger` is `false`). -/
inductive JSNumber where
  | int : Int → JSNumber
  | nonIntegral : JSNumber
deriving DecidableEq

/-- The test `!Number.isInteger(index) || index < 0` of `isolate`
(src/index.ts line 85). -/
def JSNumber.failsIndexCheck : JSNumber → Bool
  | .int i => decide (i < 0)
  | .nonIntegral => true

/-- Distinct failure modes of the pipeline, one constructor per `throw`
site modelled from src/index.ts (plus bubbled-up external failures). -/
inductive Err where
  | noChecksum            -- line 69: descriptor has not checksum
  | badChecksum           -- line 80: invalid descriptor checksum
  | invalidIndex          -- line 86: invalid index
  | invalidAddress        -- line 463: invalid address
  | invalidExpression     -- lines 470/489/507/525: invalid expression
  | noKeyExpression       -- lines 472/491/509/527: keyExpression could not be extracted
  | noMiniscriptFound     -- lines 546/588/640: could not get miniscript
  | miniscriptInP2SH      -- line 601: Miniscript expressions can only be used in wsh
  | couldNotParse         -- line 673: Could not parse descriptor
  | duplicateKeys         -- line 198: contains duplicate public keys
  | invalidKey (msg : Str) -- failures from the external key-expression parser
  | notSane               -- line 269: Miniscript is not sane
  | decompileFailed       -- line 159: could not decompile
  | scriptTooLarge        -- lines 568/623/662: script is too large
  | tooManyOps            -- lines 574/628/667: too many non-push ops
  | unresolvable          -- line 338: unresolvable miniscript
  | constraintsUnmet      -- line 351: could not find solutions for nSequence/nLockTime
  | invalidExpandedKnownsMap -- line 363
  | invalidExpansionMap   -- line 222
  | noMiniscript          -- line 758: descriptor does not have a miniscript expression
  | segwitUndetermined    -- lines 706/761
  | noSatisfaction        -- line 784: could not produce a valid satisfaction
  | noScriptPubKey        -- line 752: could not extract output.script
  | noAddress             -- line 747: could not extract an address
  | badTxHex (msg : Str)  -- Transaction.fromHex failure in updatePsbt
  | noSuchOutput          -- line 809: tx does not have vout
  | locktimeConflict      -- line 812: transaction locktime has already been set
  | noSignatures          -- line 860: cannot finalize without signatures
deriving DecidableEq

/-- A resolved key expression: the compressed pubkey (as a hex string) plus
the derivation metadata used for PSBT population.  Modelled from the spec
(the `keyExpressions.ts` module is not under src/). -/
structure KeyExpression where
  pubkey : Str
  masterFingerprint : Option Str
  path : Option Str
deriving DecidableEq

/-- A key expression as returned by one call of `parseKeyExpression`.
`refId` models JavaScript object identity: every call of the parser
constructs a fresh object, so two results of distinct calls are distinct
references even when their fields coincide. -/
structure ParsedKeyObj where
  refId : Nat
  key : KeyExpression
deriving DecidableEq

/-- A preimage record (src/index.ts lines 41-46): a textual digest such as
sha256(...) and the hex preimage. -/
structure Preimage where
  digest : Str
  preimage : Str
deriving DecidableEq

/-- A partial signature: pubkey and signature, both as hex strings. -/
structure PartialSig where
  pubkey : Str
  signature : Str
deriving DecidableEq

/-- One satisfaction returned by the external satisfier engine. -/
structure Sat where
  asm : Str
  nLockTime : Option Nat
  nSequence : Option Nat
deriving DecidableEq

/-- The constraints argument of satisfyMiniscript. -/
structure Constraints where
  nLockTime : Option Nat
  nSequence : Option Nat
deriving DecidableEq

/-- The result of satisfyMiniscript (src/index.ts lines 303-307). -/
structure SatisfyResult where
  scriptSatisfaction : List Nat
  nLockTime : Option Nat
  nSequence : Option Nat
deriving DecidableEq

/-- The result of the external compileMiniscript. -/
structure CompiledMS where
  asm : Str
  issane : Bool
deriving DecidableEq

/-- The payment selected by the constructor, as a tagged sum (the source
overwrites one field with the result of the corresponding bitcoinjs
payments constructor; the spec recommends exactly this discriminated
form). -/
inductive Payment where
  | p2pk (pubkey : Str)
  | p2pkh (pubkey : Str)
  | p2wpkh (pubkey : Str)
  | p2shWpkh (pubkey : Str)
  | p2sh (script : List Nat)
  | p2wsh (script : List Nat)
  | p2shWsh (witnessScript : List Nat)
  | fromAddr (output : List Nat)
deriving DecidableEq

/-- One chunk of a decompiled script: an opcode or a data push (bitcoinjs
decompile returns numbers and Buffers; in the JS comparison `op > OP_16` a
Buffer compares false). -/
inductive ScriptChunk where
  | op (n : Nat)
  | push (bytes : List Nat)
deriving DecidableEq

/-- The result of scanning a string for key-expression matches of the
global RegExp `RE.reKeyExp` (the `re.ts` module is not under src/):
`segments` are the n+1 non-matching pieces around the n matched `tokens`,
in order of appearance.  Modelled from the spec: scan left-to-right for
maximal key-expression substrings. -/
structure KeyScan where
  segments : List Str
  tokens : List Str
deriving DecidableEq

/-- A transaction parsed by Transaction.fromHex: its outputs (values),
its hash and its serialization. -/
structure TxOut where
  value : Nat
deriving DecidableEq

structure ParsedTx where
  outs : List TxOut
  hash : List Nat
  raw : List Nat
deriving DecidableEq

/-- A bip32Derivation entry of a PSBT input. -/
structure Bip32Deriv where
  masterFingerprint : Str
  pubkey : Str
  path : Str
deriving DecidableEq

/-- The witnessUtxo field of a PSBT input. -/
structure WitnessUtxo where
  script : List Nat
  value : Nat
deriving DecidableEq

/-- A PSBT input (the fields of PsbtInputExtended that updatePsbt sets,
plus partialSig read by finalizePsbtInput). -/
structure PsbtInputX where
  hash : List Nat
  index : Nat
  nonWitnessUtxo : List Nat
  bip32Derivation : Option (List Bip32Deriv) := none
  witnessUtxo : Option WitnessUtxo := none
  witnessScript : Option (List Nat) := none
  sequence : Option Nat := none
  partialSig : Option (List PartialSig) := none
deriving DecidableEq

/-- The PSBT capability: the locktime field and the input list.  Modelled
from the spec (the Psbt container is an external collaborator). -/
structure Psbt where
  locktime : Option Nat
  inputs : List PsbtInputX
deriving DecidableEq

/-- The external capabilities consumed by the pipeline (spec section 6),
plus the repository modules that are not under src/. -/
structure Env where
  /-- DescriptorChecksum from the missing checksum.ts: the 8-character
  checksum of a descriptor body. -/
  checksum : Str → Str
  /-- Global scan of a string by RE.reKeyExp (missing re.ts). -/
  scanKeys : Str → KeyScan
  /-- Whether a string is a single key expression (anchored RE.reKeyExp). -/
  isKeyExp : Str → Bool
  /-- parseKeyExpression from the missing keyExpressions.ts: a key token
  and the segwit flag; throws (error message) on malformed keys. -/
  parseKeyExpression : Str → Bool → Except Str KeyExpression
  /-- crypto.hash160, on hex strings. -/
  hash160 : Str → Str
  /-- The external compileMiniscript of the miniscript engine. -/
  compileMiniscript : Str → CompiledMS
  /-- The external satisfier of the miniscript engine: expanded miniscript
  and the knowns list, returning the nonMalleableSats. -/
  satisfier : Str → List Str → List Sat
  /-- The whitespace/number normalization of substituteAsm (src/index.ts
  lines 233-247); its number encoder numberEncodeAsm.ts is not under src/. -/
  normalizeAsm : Str → Str
  /-- bscript.fromASM: assemble an ASM string into script bytes. -/
  fromASM : Str → List Nat
  /-- bscript.decompile: split script bytes into chunks. -/
  decompile : List Nat → Option (List ScriptChunk)
  /-- The addr(ADDR) branch of the constructor (src/index.ts lines
  439-465): address decoding plus classification through the payment
  templates; `none` models the final invalid-address throw. -/
  addressPayment : Str → Option Payment
  /-- payment.output of a bitcoinjs payment. -/
  paymentOutput : Payment → Option (List Nat)
  /-- Transaction.fromHex. -/
  parseTx : Str → Except Str ParsedTx
  /-- psbt.finalizeInput with the default finalizers. -/
  finalizeDefault : Psbt → Nat → Psbt
  /-- psbt.finalizeInput with the finalizer built by
  finalScriptsFuncFactory (missing psbt.ts) from a satisfaction. -/
  finalizeWithScript : Psbt → Nat → List Nat → Psbt

/-! ## String helpers (JavaScript string operations) -/

/-- JavaScript `String.prototype.startsWith`. -/
def strStartsWith (s pre : Str) : Bool := pre.isPrefixOf s

/-- JavaScript `String.prototype.endsWith`. -/
def strEndsWith (s post : Str) : Bool := post.isSuffixOf s

/-- Auxiliary for `strReplaceAll`; the fuel is an upper bound on the
number of characters consumed, so `s.length` suffices. -/
def strReplaceAllAux (pat rep : Str) : Nat → Str → Str
  | 0, s => s
  | _ + 1, [] => []
  | fuel + 1, c :: rest =>
    if pat.isPrefixOf (c :: rest) then
      rep ++ strReplaceAllAux pat rep fuel ((c :: rest).drop pat.length)
    else
      c :: strReplaceAllAux pat rep fuel rest

/-- JavaScript `String.prototype.replaceAll` with a plain-string pattern:
replace all non-overlapping occurrences, scanning left to right.  (The
source never calls it with an empty pattern.) -/
def strReplaceAll (s pat rep : Str) : Str :=
  if pat.isEmpty then s else strReplaceAllAux pat rep s.length s

/-- JavaScript `String.prototype.replace` with a plain-string pattern:
replace the first occurrence only. -/
def strReplaceFirst (s pat rep : Str) : Str :=
  match s with
  | [] => []
  | c :: rest =>
    if pat.isPrefixOf (c :: rest) then rep ++ (c :: rest).drop pat.length
    else c :: strReplaceFirst rest pat rep

/-- Anchored match `pre(.*)post`: the inner capture when the string starts
with `pre` and ends with `post`, as in the anchored shape regexes of the
missing re.ts (modelled from the spec, section 4.1). -/
def matchInner (pre post e : Str) : Option Str :=
  if strStartsWith e pre && strEndsWith e post
      && decide (pre.length + post.length ≤ e.length) then
    some ((e.drop pre.length).take (e.length - pre.length - post.length))
  else none

/-- JavaScript object property assignment `m[k] = v` on a string-keyed
object modelled as an insertion-ordered association list: an existing key
keeps its position and gets the new value, a new key is appended. -/
def jsAssign {α : Type} (m : List (Str × α)) (k : Str) (v : α) : List (Str × α) :=
  if m.any (fun kv => kv.1 = k) then
    m.map (fun kv => if kv.1 = k then (k, v) else kv)
  else m ++ [(k, v)]

/-- Size of the JavaScript `new Set(values)` when the values are objects:
Set membership uses reference equality, so the size is the number of
distinct references. -/
def jsSetSize (vals : List ParsedKeyObj) : Nat :=
  (vals.map ParsedKeyObj.refId).dedup.length

/-- The 32-symbol checksum alphabet (spec section 4.2; checksum.ts and
re.ts are not under src/, so this is modelled from the spec and the
descriptor specification it cites). -/
def checksumCharset : Str := str "qpzry9x8gf2tvdw0s3jn54khce6mua7l"

/-- The match of the anchored RegExp built from RE.reChecksum at the end
of an expression (src/index.ts line 67): a trailing hash sign followed by
exactly 8 characters of the checksum alphabet.  Returns the body before
the suffix and the 8 checksum characters. -/
def reChecksumMatch (e : Str) : Option (Str × Str) :=
  if 9 ≤ e.length then
    let body := e.take (e.length - 9)
    match e.drop (e.length - 9) with
    | '#' :: rest =>
      if rest.length = 8 && rest.all (fun c => checksumCharset.contains c) then
        some (body, rest)
      else none
    | _ => none
  else none

/-! ## isolate (src/index.ts lines 58-98) -/

/-- The wildcard step of isolate (lines 83-96): if the expression contains
a star, require a non-negative integer index and replace every star with
the decimal form of the index. -/
def wildcardStep (isolatedExpression : Str) (index : JSNumber) : Except Err Str :=
  if isolatedExpression.contains '*' then
    if index.failsIndexCheck then .error .invalidIndex
    else
      match index with
      | .int i => .ok (strReplaceAll isolatedExpression (str "*") (toString i).toList)
      | .nonIntegral => .error .invalidIndex
  else .ok isolatedExpression

/-- isolate: strip and verify the trailing checksum (failing when
checksumRequired is set and none exists), then particularize the wildcard
(src/index.ts lines 58-98).  The checksum function of the missing
checksum.ts is a parameter. -/
def isolate (checksumFn : Str → Str) (expression : Str)
    (checksumRequired : Bool) (index : JSNumber) : Except Err Str :=
  let mChecksum := reChecksumMatch expression
  if mChecksum = none && checksumRequired then .error .noChecksum
  else
    match mChecksum with
    | some (isolatedExpression, checksum) =>
      if checksum ≠ checksumFn isolatedExpression then .error .badChecksum
      else wildcardStep isolatedExpression index
    | none => wildcardStep expression index

/-! ## expandMiniscript (src/index.ts lines 170-202) -/

/-- Parse each matched key token through the external parseKeyExpression,
wrapping its failures (the throws inside the replace callback). -/
def parseTokens (env : Env) : List Str → Bool → Except Err (List KeyExpression)
  | [], _ => .ok []
  | t :: ts, isSegwit =>
    match env.parseKeyExpression t isSegwit with
    | .error m => .error (.invalidKey m)
    | .ok k =>
      match parseTokens env ts isSegwit with
      | .error e => .error e
      | .ok ks => .ok (k :: ks)

/-- The variable token for the i-th matched key expression. -/
def atKey (i : Nat) : Str := '@' :: (Nat.repr i).toList

/-- Reassemble the expanded miniscript: the non-matching segments with the
i-th match replaced by its variable token. -/
def interleaveExpanded : List Str → List Str → Str
  | [], _ => []
  | s :: segs, [] => s ++ interleaveExpanded segs []
  | s :: segs, k :: keys => s ++ k ++ interleaveExpanded segs keys

/-- expandMiniscript: replace each key expression with a positional
variable, building the expansion map, then reject when the JavaScript Set
of the map values is smaller than the value list (src/index.ts lines
182-200).  The values are the KeyExpression objects freshly constructed by
parseKeyExpression, so the Set compares references, modelled by `refId`. -/
def expandMiniscript (env : Env) (miniscript : Str) (isSegwit : Bool) :
    Except Err (Str × List (Str × ParsedKeyObj)) :=
  let scan := env.scanKeys miniscript
  match parseTokens env scan.tokens isSegwit with
  | .error e => .error e
  | .ok kes =>
    let entries := kes.enum.map (fun p => (atKey p.1, ParsedKeyObj.mk p.1 p.2))
    let expandedMiniscript :=
      interleaveExpanded scan.segments (entries.map (fun kv => kv.1))
    let pubkeys := entries.map (fun kv => kv.2)
    if jsSetSize pubkeys ≠ pubkeys.length then .error .duplicateKeys
    else .ok (expandedMiniscript, entries)

/-! ## substituteAsm and miniscript2Script (src/index.ts lines 211-274) -/

/-- substituteAsm: replace the variables back by pubkeys and their
hash160s (lines 219-230), then normalize whitespace, encode numbers and
strip the angle brackets (lines 233-247, via the environment since the
number encoder module is not under src/).  The `!pubkey` throw of line 221
guards a JavaScript undefined and is unreachable here, since every map
value holds a pubkey. -/
def substituteAsm (env : Env) (expandedAsm : Str)
    (expansionMap : List (Str × ParsedKeyObj)) : Str :=
  let asm := expansionMap.foldl
    (fun accAsm kv =>
      let pubkey := kv.2.key.pubkey
      strReplaceAll
        (strReplaceAll accAsm (str "<" ++ kv.1 ++ str ">")
          (str "<" ++ pubkey ++ str ">"))
        (str "<HASH160(" ++ kv.1 ++ str ")>")
        (str "<" ++ env.hash160 pubkey ++ str ">"))
    expandedAsm
  env.normalizeAsm asm

/-- miniscript2Script (lines 253-274): expand, compile with the external
engine, reject non-sane miniscripts, substitute and assemble. -/
def miniscript2Script (env : Env) (miniscript : Str) (isSegwit : Bool) :
    Except Err (List Nat) :=
  match expandMiniscript env miniscript isSegwit with
  | .error e => .error e
  | .ok (expandedMiniscript, expansionMap) =>
    let compiled := env.compileMiniscript expandedMiniscript
    if compiled.issane ≠ true then .error .notSane
    else .ok (env.fromASM (substituteAsm env compiled.asm expansionMap))

/-- countNonPushOnlyOPs (lines 157-161): decompile and count the chunks
that are opcodes greater than OP_16 (0x60); push chunks are Buffers, for
which the JavaScript comparison is false. -/
def isNonPushOp : ScriptChunk → Bool
  | .op n => decide (96 < n)
  | .push _ => false

def countNonPushOnlyOPs (env : Env) (script : List Nat) : Except Err Nat :=
  match env.decompile script with
  | none => .error .decompileFailed
  | some chunks => .ok (chunks.filter isNonPushOp).length

/-! ## satisfyMiniscript (src/index.ts lines 287-375) -/

/-- The preimage part of the knowns table (lines 314-319): the digest with
its first open parenthesis replaced by `_preimage(`, in angle brackets. -/
def preimageMapOf (preimages : List Preimage) : List (Str × Str) :=
  preimages.foldl
    (fun acc p =>
      jsAssign acc
        (str "<" ++ strReplaceFirst p.digest (str "(") (str "_preimage(") ++ str ">")
        (str "<" ++ p.preimage ++ str ">"))
    []

/-- The knowns key contributed by one signature (lines 324-331): the first
expansion-map key whose pubkey hex equals the signature pubkey hex;
JavaScript template interpolation prints `undefined` when the find fails. -/
def sigKeyOf (expansionMap : List (Str × ParsedKeyObj)) (s : PartialSig) : Str :=
  let keyExpression :=
    (expansionMap.find? (fun kv => decide (kv.2.key.pubkey = s.pubkey))).map
      (fun kv => kv.1)
  str "<sig(" ++ keyExpression.getD (str "undefined") ++ str ")>"

/-- The signature part of the knowns table. -/
def signatureMapOf (expansionMap : List (Str × ParsedKeyObj))
    (signatures : List PartialSig) : List (Str × Str) :=
  signatures.foldl
    (fun acc s => jsAssign acc (sigKeyOf expansionMap s) (str "<" ++ s.signature ++ str ">"))
    []

/-- The spread `{ ...preimageMap, ...expandedSignatureMap }` (line 332). -/
def buildKnownsMap (expansionMap : List (Str × ParsedKeyObj))
    (preimages : List Preimage) (signatures : List PartialSig) : List (Str × Str) :=
  (signatureMapOf expansionMap signatures).foldl
    (fun acc kv => jsAssign acc kv.1 kv.2) (preimageMapOf preimages)

/-- Solution selection (lines 337-354): the emptiness check of line 337
comes first; without constraints the first non-malleable satisfaction is
taken, with constraints the first one whose pair matches exactly. -/
def selectSat (nonMalleableSats : List Sat) (constraints : Option Constraints) :
    Except Err Sat :=
  match nonMalleableSats.head? with
  | none => .error .unresolvable
  | some first =>
    match constraints with
    | none => .ok first
    | some c =>
      match nonMalleableSats.find?
          (fun s => decide (s.nSequence = c.nSequence) && decide (s.nLockTime = c.nLockTime)) with
      | some s => .ok s
      | none => .error .constraintsUnmet

/-- The substitution loop over the knowns table (lines 360-365), with the
per-entry validity check of line 362. -/
def substKnowns : List (Str × Str) → Str → Except Err Str
  | [], asm => .ok asm
  | (k, v) :: rest, asm =>
    if v = [] || v = str "<>" then .error .invalidExpandedKnownsMap
    else substKnowns rest (strReplaceAll asm k v)

/-- satisfyMiniscript (lines 287-375). -/
def satisfyMiniscript (env : Env) (miniscript : Str) (isSegwit : Bool)
    (signatures : List PartialSig) (preimages : List Preimage)
    (constraints : Option Constraints) : Except Err SatisfyResult :=
  match expandMiniscript env miniscript isSegwit with
  | .error e => .error e
  | .ok (expandedMiniscript, expansionMap) =>
    let expandedKnownsMap := buildKnownsMap expansionMap preimages signatures
    let knowns := expandedKnownsMap.map (fun kv => kv.1)
    let nonMalleableSats := env.satisfier expandedMiniscript knowns
    match selectSat nonMalleableSats constraints with
    | .error e => .error e
    | .ok sat =>
      match substKnowns expandedKnownsMap sat.asm with
      | .error e => .error e
      | .ok expandedAsm =>
        .ok ⟨env.fromASM (substituteAsm env expandedAsm expansionMap),
             sat.nLockTime, sat.nSequence⟩

/-! ## The Descriptor instance and its constructor (src/index.ts lines 377-741) -/

/-- The immutable private state of a constructed Descriptor
(src/index.ts lines 378-388). -/
structure Descriptor where
  payment : Payment
  preimages : List Preimage
  miniscript : Option Str
  witnessScript : Option (List Nat)
  isSegwit : Option Bool
  expandedExpression : Option Str
  expandedMiniscript : Option Str
  expansionMap : Option (List (Str × ParsedKeyObj))
  nLockTime : Option Nat
  nSequence : Option Nat
deriving DecidableEq

/-- The constructor arguments (src/index.ts lines 405-421; the network is
carried by the environment). -/
structure ConstructorParams where
  expression : Str
  index : JSNumber
  checksumRequired : Bool := false
  allowMiniscriptInP2SH : Bool := false
  preimages : List Preimage := []
  signersKeyExpressions : Option (List Str) := none
deriving DecidableEq

/-- Truthiness of the matched address capture: a JavaScript string is
truthy exactly when nonempty (line 439 tests `if (matchedAddress)`). -/
def jsTruthyOptStr : Option Str → Bool
  | some (_ :: _) => true
  | _ => false

/-- Buffer.alloc(64, 0) as a hex string: 64 zero bytes, 128 zero digits. -/
def zeroSig64 : Str := List.replicate 128 '0'

/-- Resolution of the signer set (lines 712-723): when
signersKeyExpressions is omitted, default to the hex pubkeys of all keys of
a fresh expansion of the miniscript. -/
def resolvedSigners (env : Env) (signersKeyExpressions : Option (List Str))
    (miniscript : Str) (isSegwit : Bool) : Except Err (List Str) :=
  match signersKeyExpressions with
  | some l => .ok l
  | none =>
    match expandMiniscript env miniscript isSegwit with
    | .error e => .error e
    | .ok (_, expansionMap) => .ok (expansionMap.map (fun kv => kv.2.key.pubkey))

/-- The fake signatures of lines 726-730: each signer key expression is
parsed and paired with a 64-byte all-zero signature. -/
def parseFakeSigs (env : Env) : List Str → Bool → Except Err (List PartialSig)
  | [], _ => .ok []
  | ke :: rest, isSegwit =>
    match env.parseKeyExpression ke isSegwit with
    | .error m => .error (.invalidKey m)
    | .ok k =>
      match parseFakeSigs env rest isSegwit with
      | .error e => .error e
      | .ok l => .ok (⟨k.pubkey, zeroSig64⟩ :: l)

/-- The satisfier probe run unconditionally at the end of the constructor
for miniscript-bearing shapes (lines 704-740): fake all-zero signatures
for the signer set plus the given preimages, no constraints; the resulting
nLockTime and nSequence are cached on the instance. -/
def miniscriptConstraints (env : Env) (preimages : List Preimage)
    (signersKeyExpressions : Option (List Str)) (miniscript : Str)
    (isSegwit : Bool) : Except Err (Option Nat × Option Nat) :=
  match resolvedSigners env signersKeyExpressions miniscript isSegwit with
  | .error e => .error e
  | .ok signers =>
    match parseFakeSigs env signers isSegwit with
    | .error e => .error e
    | .ok fakeSignatures =>
      match satisfyMiniscript env miniscript isSegwit fakeSignatures preimages none with
      | .error e => .error e
      | .ok r => .ok (r.nLockTime, r.nSequence)

/-- The addr(ADDR) branch (lines 439-466). -/
def addrBranch (env : Env) (matchedAddress : Str) (preimages : List Preimage) :
    Except Err Descriptor :=
  match env.addressPayment matchedAddress with
  | none => .error .invalidAddress
  | some payment =>
    .ok { payment := payment, preimages := preimages, miniscript := none,
          witnessScript := none, isSegwit := none, expandedExpression := none,
          expandedMiniscript := none, expansionMap := none,
          nLockTime := none, nSequence := none }

/-- A key-only branch body shared by pk/pkh/sh(wpkh)/wpkh (lines 467-539):
verify the canonical re-rendering, parse the single key, build the
payment. -/
def keyOnlyBranch (env : Env) (isolatedExpression : Str)
    (keyExpression : Option Str) (preimages : List Preimage)
    (isSegwit : Bool) (pre post : Str) (expanded : Str)
    (mkPayment : Str → Payment) : Except Err Descriptor :=
  if isolatedExpression ≠ pre ++ keyExpression.getD (str "undefined") ++ post then
    .error .invalidExpression
  else
    match keyExpression with
    | none => .error .noKeyExpression
    | some kt =>
      match env.parseKeyExpression kt isSegwit with
      | .error m => .error (.invalidKey m)
      | .ok k =>
        .ok { payment := mkPayment k.pubkey, preimages := preimages,
              miniscript := none, witnessScript := none,
              isSegwit := some isSegwit, expandedExpression := some expanded,
              expandedMiniscript := none,
              expansionMap := some [(str "@0", ParsedKeyObj.mk 0 k)],
              nLockTime := none, nSequence := none }

/-- The sh(wsh(MS)) branch (lines 541-581): witness script limited to 3600
bytes and 201 non-push ops, then the probe. -/
def shWshBranch (env : Env) (ms : Str) (preimages : List Preimage)
    (signers : Option (List Str)) : Except Err Descriptor :=
  if ms = [] then .error .noMiniscriptFound
  else
    match expandMiniscript env ms true with
    | .error e => .error e
    | .ok (expandedMiniscript, expansionMap) =>
      match miniscript2Script env ms true with
      | .error e => .error e
      | .ok script =>
        if script.length > 3600 then .error .scriptTooLarge
        else
          match countNonPushOnlyOPs env script with
          | .error e => .error e
          | .ok nonPushOnlyOps =>
            if nonPushOnlyOps > 201 then .error .tooManyOps
            else
              match miniscriptConstraints env preimages signers ms true with
              | .error e => .error e
              | .ok (nLockTime, nSequence) =>
                .ok { payment := .p2shWsh script, preimages := preimages,
                      miniscript := some ms, witnessScript := some script,
                      isSegwit := some true,
                      expandedExpression :=
                        some (str "sh(wsh(" ++ expandedMiniscript ++ str "))"),
                      expandedMiniscript := some expandedMiniscript,
                      expansionMap := some expansionMap,
                      nLockTime := nLockTime, nSequence := nSequence }

/-- The 8 template heads allowed inside bare sh (line 597). -/
def templateHeads : List Str :=
  [str "pk(", str "pkh(", str "wpkh(", str "combo(", str "multi(",
   str "sortedmulti(", str "multi_a(", str "sortedmulti_a("]

/-- The test `miniscript.search(/^(pk\(|...)/) !== 0` of lines 596-598. -/
def startsWithTemplate (ms : Str) : Bool :=
  templateHeads.any (fun h => h.isPrefixOf ms)

/-- The sh(MS) processing after the template gate (lines 604-632): bare
script limited to 520 bytes and 201 non-push ops, then the probe.  This
shape is non-segwit. -/
def shPipeline (env : Env) (ms : Str) (preimages : List Preimage)
    (signers : Option (List Str)) : Except Err Descriptor :=
  match expandMiniscript env ms false with
    | .error e => .error e
    | .ok (expandedMiniscript, expansionMap) =>
      match miniscript2Script env ms false with
      | .error e => .error e
      | .ok script =>
        if script.length > 520 then .error .scriptTooLarge
        else
          match countNonPushOnlyOPs env script with
          | .error e => .error e
          | .ok nonPushOnlyOps =>
            if nonPushOnlyOps > 201 then .error .tooManyOps
            else
              match miniscriptConstraints env preimages signers ms false with
              | .error e => .error e
              | .ok (nLockTime, nSequence) =>
                .ok { payment := .p2sh script, preimages := preimages,
                      miniscript := some ms, witnessScript := none,
                      isSegwit := some false,
                      expandedExpression :=
                        some (str "sh(" ++ expandedMiniscript ++ str ")"),
                      expandedMiniscript := some expandedMiniscript,
                      expansionMap := some expansionMap,
                      nLockTime := nLockTime, nSequence := nSequence }

/-- The sh(MS) branch (lines 583-633): reject an empty capture, apply the
template gate unless allowMiniscriptInP2SH, then run the bare-sh
pipeline. -/
def shBranch (env : Env) (allowMiniscriptInP2SH : Bool) (ms : Str)
    (preimages : List Preimage) (signers : Option (List Str)) :
    Except Err Descriptor :=
  if ms = [] then .error .noMiniscriptFound
  else if allowMiniscriptInP2SH = false && startsWithTemplate ms = false then
    .error .miniscriptInP2SH
  else shPipeline env ms preimages signers

/-- The wsh(MS) branch (lines 635-671): witness script limited to 3600
bytes and 201 non-push ops, then the probe. -/
def wshBranch (env : Env) (ms : Str) (preimages : List Preimage)
    (signers : Option (List Str)) : Except Err Descriptor :=
  if ms = [] then .error .noMiniscriptFound
  else
    match expandMiniscript env ms true with
    | .error e => .error e
    | .ok (expandedMiniscript, expansionMap) =>
      match miniscript2Script env ms true with
      | .error e => .error e
      | .ok script =>
        if script.length > 3600 then .error .scriptTooLarge
        else
          match countNonPushOnlyOPs env script with
          | .error e => .error e
          | .ok nonPushOnlyOps =>
            if nonPushOnlyOps > 201 then .error .tooManyOps
            else
              match miniscriptConstraints env preimages signers ms true with
              | .error e => .error e
              | .ok (nLockTime, nSequence) =>
                .ok { payment := .p2wsh script, preimages := preimages,
                      miniscript := some ms, witnessScript := some script,
                      isSegwit := some true,
                      expandedExpression :=
                        some (str "wsh(" ++ expandedMiniscript ++ str ")"),
                      expandedMiniscript := some expandedMiniscript,
                      expansionMap := some expansionMap,
                      nLockTime := nLockTime, nSequence := nSequence }

/-- The anchored key-only shape matchers (re.ts is not under src/,
modelled from the spec section 4.1: a full-string match of the form with a
key expression inside). -/
def matchKeyForm (env : Env) (pre post e : Str) : Bool :=
  match matchInner pre post e with
  | some t => env.isKeyExp t
  | none => false

/-- The Descriptor constructor (src/index.ts lines 405-741): isolate,
dispatch on the anchored shape matchers in source order, run the matched
branch (each miniscript branch ends with the satisfier probe). -/
def descriptorConstructor (env : Env) (p : ConstructorParams) :
    Except Err Descriptor :=
  match isolate env.checksum p.expression p.checksumRequired p.index with
  | .error e => .error e
  | .ok isolatedExpression =>
    let matchedAddress := matchInner (str "addr(") (str ")") isolatedExpression
    let keyExpression := (env.scanKeys isolatedExpression).tokens.head?
    if jsTruthyOptStr matchedAddress then
      addrBranch env (matchedAddress.getD []) p.preimages
    else if matchKeyForm env (str "pk(") (str ")") isolatedExpression then
      keyOnlyBranch env isolatedExpression keyExpression p.preimages false
        (str "pk(") (str ")") (str "pk(@0)") Payment.p2pk
    else if matchKeyForm env (str "pkh(") (str ")") isolatedExpression then
      keyOnlyBranch env isolatedExpression keyExpression p.preimages false
        (str "pkh(") (str ")") (str "pkh(@0)") Payment.p2pkh
    else if matchKeyForm env (str "sh(wpkh(") (str "))") isolatedExpression then
      keyOnlyBranch env isolatedExpression keyExpression p.preimages true
        (str "sh(wpkh(") (str "))") (str "sh(wpkh(@0))") Payment.p2shWpkh
    else if matchKeyForm env (str "wpkh(") (str ")") isolatedExpression then
      keyOnlyBranch env isolatedExpression keyExpression p.preimages true
        (str "wpkh(") (str ")") (str "wpkh(@0)") Payment.p2wpkh
    else
      match matchInner (str "sh(wsh(") (str "))") isolatedExpression with
      | some ms => shWshBranch env ms p.preimages p.signersKeyExpressions
      | none =>
        match matchInner (str "sh(") (str ")") isolatedExpression with
        | some ms =>
          shBranch env p.allowMiniscriptInP2SH ms p.preimages
            p.signersKeyExpressions
        | none =>
          match matchInner (str "wsh(") (str ")") isolatedExpression with
          | some ms => wshBranch env ms p.preimages p.signersKeyExpressions
          | none => .error .couldNotParse

/-! ## Instance operations (src/index.ts lines 742-895) -/

/-- getScriptPubKey (lines 750-754). -/
def getScriptPubKey (env : Env) (d : Descriptor) : Except Err (List Nat) :=
  match env.paymentOutput d.payment with
  | none => .error .noScriptPubKey
  | some output => .ok output

/-- getScriptSatisfaction (lines 755-786): requires a miniscript and a
known segwit flag, then satisfies under the cached nLockTime/nSequence as
constraints.  The final `if (!satisfaction) throw` of line 783 tests a
Buffer, which is always truthy, so it never fires. -/
def getScriptSatisfaction (env : Env) (d : Descriptor)
    (signatures : List PartialSig) : Except Err (List Nat) :=
  match d.miniscript with
  | none => .error .noMiniscript
  | some ms =>
    match d.isSegwit with
    | none => .error .segwitUndetermined
    | some isSegwit =>
      match satisfyMiniscript env ms isSegwit signatures d.preimages
          (some ⟨d.nLockTime, d.nSequence⟩) with
      | .error e => .error e
      | .ok r => .ok r.scriptSatisfaction

/-- JavaScript truthiness of a Buffer: always truthy, even when empty.
The `if (!scriptSatisfaction)` test of line 862 is therefore constant. -/
def jsBufferFalsy (_ : List Nat) : Bool := false

/-- finalizePsbtInput (lines 857-871): fail without partialSig, compute the
satisfaction, and finalize with the derived finalizer (the standard
finalizer branch of lines 862-864 requires a falsy satisfaction). -/
def finalizePsbtInput (env : Env) (d : Descriptor) (index : Nat)
    (psbt : Psbt) : Except Err Psbt :=
  match (psbt.inputs.get? index).bind PsbtInputX.partialSig with
  | none => .error .noSignatures
  | some signatures =>
    match getScriptSatisfaction env d signatures with
    | .error e => .error e
    | .ok scriptSatisfaction =>
      if jsBufferFalsy scriptSatisfaction then
        .ok (env.finalizeDefault psbt index)
      else
        .ok (env.finalizeWithScript psbt index scriptSatisfaction)

/-- The input sequence rule of updatePsbt (lines 815-821). -/
def sequenceRule (d : Descriptor) : Option Nat :=
  match d.nSequence with
  | some s => some s
  | none =>
    match d.nLockTime with
    | some _ => some 0xfffffffe
    | none => none

/-- The bip32Derivation population from the expansion map (lines 828-844):
entries that carry a master fingerprint and a path (the pubkey, a Buffer,
is always truthy); the field is set only when the list is nonempty. -/
def bip32DerivationOf (d : Descriptor) : Option (List Bip32Deriv) :=
  match d.expansionMap with
  | none => none
  | some em =>
    let l := ((em.map (fun kv => kv.2.key)).filter
        (fun k => k.masterFingerprint.isSome && k.path.isSome)).map
      (fun k => Bip32Deriv.mk (k.masterFingerprint.getD []) k.pubkey (k.path.getD []))
    if l.length ≠ 0 then some l else none

/-- updatePsbt (lines 805-856): parse the transaction, locate the output,
handle the locktime conflict, compute the input sequence, populate the
input and append it (psbt.addInput of the Psbt capability, modelled from
the spec as appending one input), returning the index of the new input. -/
def updatePsbt (env : Env) (d : Descriptor) (txHex : Str) (vout : Nat)
    (psbt : Psbt) : Except Err (Psbt × Nat) :=
  match env.parseTx txHex with
  | .error m => .error (.badTxHex m)
  | .ok tx =>
    match tx.outs.get? vout with
    | none => .error .noSuchOutput
    | some out =>
      match (match d.nLockTime with
             | some lt =>
               if psbt.locktime ≠ some 0 ∧ psbt.locktime ≠ none then
                 Except.error Err.locktimeConflict
               else .ok { psbt with locktime := some lt }
             | none => .ok psbt) with
      | .error e => .error e
      | .ok psbt1 =>
        match (if d.isSegwit = some true then
                 match getScriptPubKey env d with
                 | .error e => Except.error e
                 | .ok spk => .ok (some (WitnessUtxo.mk spk out.value))
               else .ok none) with
        | .error e => .error e
        | .ok witnessUtxo =>
          let input : PsbtInputX :=
            { hash := tx.hash, index := vout, nonWitnessUtxo := tx.raw,
              bip32Derivation := bip32DerivationOf d,
              witnessUtxo := witnessUtxo,
              witnessScript := d.witnessScript,
              sequence := sequenceRule d,
              partialSig := none }
          let psbt2 : Psbt := { psbt1 with inputs := psbt1.inputs ++ [input] }
          .ok (psbt2, psbt2.inputs.length - 1)

/-! ## Concrete instantiations of the external capabilities, used to
evaluate the pipeline at concrete inputs. -/

/-- A concrete key resolution: the tokens KEY1, KEYA and KEYB resolve to
the compressed pubkey hex aa (KEYA and KEYB are two distinct tokens for
the same key); a raw hex pubkey resolves to itself. -/
def testResolve (t : Str) : Str :=
  if t = str "KEY1" ∨ t = str "KEYA" ∨ t = str "KEYB" then str "aa" else t

/-- A concrete tabulation of the key-expression scan for the strings the
examples use. -/
def testScan (s : Str) : KeyScan :=
  if s = str "pk(KEY1)" then ⟨[str "pk(", str ")"], [str "KEY1"]⟩
  else if s = str "wsh(pk(KEY1))" then ⟨[str "wsh(pk(", str "))"], [str "KEY1"]⟩
  else if s = str "pkh(KEY1)" then ⟨[str "pkh(", str ")"], [str "KEY1"]⟩
  else if s = str "and_v(v:pk(KEYA),pk(KEYB))" then
    ⟨[str "and_v(v:pk(", str "),pk(", str "))"], [str "KEYA", str "KEYB"]⟩
  else ⟨[s], []⟩

/-- A concrete environment: one real key, a one-fragment miniscript engine
whose only satisfaction is a signature of the first key, and trivial
assembly producing a 2-byte script with one non-push opcode. -/
def testEnv : Env where
  checksum := fun _ => str "qqqqqqqq"
  scanKeys := testScan
  isKeyExp := fun t => t = str "KEY1"
  parseKeyExpression := fun t _ => .ok ⟨testResolve t, none, none⟩
  hash160 := fun h => str "h160:" ++ h
  compileMiniscript := fun _ => ⟨str "<@0> OP_CHECKSIG", true⟩
  satisfier := fun _ _ => [⟨str "<sig(@0)>", none, none⟩]
  normalizeAsm := fun s => s
  fromASM := fun _ => [170, 172]
  decompile := fun _ => some [.op 172]
  addressPayment := fun _ => none
  paymentOutput := fun _ => some [0, 20]
  parseTx := fun _ => .ok ⟨[⟨1000⟩, ⟨2000⟩], [7, 7], [9, 9, 9]⟩
  finalizeDefault := fun p _ => p
  finalizeWithScript := fun p _ _ => p

/-- testEnv with a satisfier that never finds a solution. -/
def emptySatEnv : Env := { testEnv with satisfier := fun _ _ => [] }

/-! ## Concrete inputs and expected outputs used in the examples below. -/

def wshParams : ConstructorParams :=
  ⟨str "wsh(pk(KEY1))", .int 0, false, false, [], none⟩

def keyObj0 : ParsedKeyObj := ⟨0, ⟨str "aa", none, none⟩⟩

/-- The instance state produced by constructing wsh(pk(KEY1)) under
testEnv. -/
def wshDescr : Descriptor :=
  { payment := .p2wsh [170, 172], preimages := [],
    miniscript := some (str "pk(KEY1)"), witnessScript := some [170, 172],
    isSegwit := some true,
    expandedExpression := some (str "wsh(pk(@0))"),
    expandedMiniscript := some (str "pk(@0)"),
    expansionMap := some [(str "@0", keyObj0)],
    nLockTime := none, nSequence := none }

def pkhParams : ConstructorParams :=
  ⟨str "pkh(KEY1)", .int 0, false, false, [], none⟩

/-- The instance state produced by constructing pkh(KEY1) under testEnv. -/
def pkhDescr : Descriptor :=
  { payment := .p2pkh (str "aa"), preimages := [],
    miniscript := none, witnessScript := none, isSegwit := some false,
    expandedExpression := some (str "pkh(@0)"), expandedMiniscript := none,
    expansionMap := some [(str "@0", keyObj0)],
    nLockTime := none, nSequence := none }

/-- A preimage violating every ingest rule the spec states: unknown hash
function, digest payload of the wrong length, non-hex preimage of the
wrong length. -/
def badPreimage : Preimage := ⟨str "md5(zz)", str "XY"⟩

def badPreParams : ConstructorParams :=
  ⟨str "pkh(KEY1)", .int 0, false, false, [badPreimage], none⟩

/-- A PSBT whose single input carries a partial signature. -/
def psbtWithSig : Psbt :=
  ⟨some 0, [{ hash := [7, 7], index := 0, nonWitnessUtxo := [9, 9, 9],
              partialSig := some [⟨str "aa", str "55"⟩] }]⟩

/-- A PSBT whose single input carries no partial signature. -/
def psbtNoSig : Psbt :=
  ⟨some 0, [{ hash := [7, 7], index := 0, nonWitnessUtxo := [9, 9, 9] }]⟩

/-- A pkh-shaped instance with a cached nLockTime, to exercise the
locktime and sequence rules of updatePsbt. -/
def lockDescr : Descriptor := { pkhDescr with nLockTime := some 500000 }

def emptyPsbt : Psbt := ⟨some 0, []⟩

/-- The expansion-map entry and unmatched signature of the knowns-table
example. -/
def emX : List (Str × ParsedKeyObj) := [(str "@0", keyObj0)]

def sigX : PartialSig := ⟨str "bb", str "cc"⟩

def satX : Sat := ⟨str "A", some 1, some 2⟩

def conX : Constraints := ⟨some 9, some 9⟩

def shParams : ConstructorParams :=
  ⟨str "sh(xyz)", .int 0, false, false, [], none⟩

/-- The miniscript in which two distinct key tokens, KEYA and KEYB,
resolve to the same compressed pubkey aa under testEnv. -/
def dupMs : Str := str "and_v(v:pk(KEYA),pk(KEYB))"

def keyObj1 : ParsedKeyObj := ⟨1, ⟨str "aa", none, none⟩⟩

/-- The expansion map that expandMiniscript accepts for dupMs: two entries
holding the same pubkey. -/
def dupExpansion : List (Str × ParsedKeyObj) := [(str "@0", keyObj0), (str "@1", keyObj1)]

/-- The input appended by updatePsbt in the locktime example: nSequence is
absent and nLockTime cached, so the sequence is 0xfffffffe. -/
def lockInput : PsbtInputX :=
  { hash := [7, 7], index := 1, nonWitnessUtxo := [9, 9, 9],
    sequence := some 0xfffffffe }

def lockResult : Psbt × Nat := (⟨some 500000, [lockInput]⟩, 0)

/-! ## Supporting lemmas -/

lemma parseTokens_error_shape (env : Env) :
    ∀ (ts : List Str) (isSegwit : Bool) (e : Err),
      parseTokens env ts isSegwit = .error e → ∃ m, e = .invalidKey m := by
  intro ts
  induction ts with
  | nil => intro isSegwit e h; simp [parseTokens] at h
  | cons t ts ih =>
    intro isSegwit e h
    rw [parseTokens] at h
    cases hpk : env.parseKeyExpression t isSegwit with
    | error m =>
      rw [hpk] at h
      exact ⟨m, by injection h with h2; exact h2.symm⟩
    | ok k =>
      rw [hpk] at h
      cases hrest : parseTokens env ts isSegwit with
      | error e2 =>
        rw [hrest] at h
        injection h with h2
        exact h2 ▸ ih isSegwit e2 hrest
      | ok ks => rw [hrest] at h; simp at h

lemma expandMiniscript_pubkeys_refIds (kes : List KeyExpression) :
    (((kes.enum.map (fun p => (atKey p.1, ParsedKeyObj.mk p.1 p.2))).map
        (fun kv => kv.2)).map ParsedKeyObj.refId) = kes.enum.map Prod.fst := by
  simp only [List.map_map]
  rfl

lemma expandMiniscript_error_shape (env : Env) (ms : Str) (isSegwit : Bool)
    (e : Err) (h : expandMiniscript env ms isSegwit = .error e) :
    ∃ m, e = .invalidKey m := by
  rw [expandMiniscript] at h
  cases hpt : parseTokens env (env.scanKeys ms).tokens isSegwit with
  | error e2 =>
    rw [hpt] at h
    injection h with h2
    exact h2 ▸ parseTokens_error_shape env _ _ _ hpt
  | ok kes =>
    rw [hpt] at h
    have hsize :
        jsSetSize ((kes.enum.map (fun p => (atKey p.1, ParsedKeyObj.mk p.1 p.2))).map
          (fun kv => kv.2)) =
        ((kes.enum.map (fun p => (atKey p.1, ParsedKeyObj.mk p.1 p.2))).map
          (fun kv => kv.2)).length := by
      rw [jsSetSize, expandMiniscript_pubkeys_refIds,
        List.dedup_eq_self.mpr (List.nodup_enum_map_fst kes)]
      simp
    dsimp only at h
    rw [if_neg (fun hc => hc hsize)] at h
    simp at h

/-- C1: the duplicate-pubkey rejection of expandMiniscript (src/index.ts
lines 195-200) never fires: `new Set(Object.values(expansionMap))`
collects the KeyExpression objects themselves, and distinct key tokens
always yield reference-distinct objects, so the Set size always equals the
value count.  Every expansion either succeeds or fails inside the
key-expression parser; in particular dupMs, whose two distinct key tokens
resolve to the same pubkey, is accepted with a duplicate pubkey in the
expansion map instead of raising the duplicate-pubkey error. -/
theorem claimC1_duplicate_check_never_fires :
    (∀ (env : Env) (ms : Str) (isSegwit : Bool),
      (∃ r, expandMiniscript env ms isSegwit = .ok r) ∨
      (∃ m, expandMiniscript env ms isSegwit = .error (.invalidKey m))) ∧
    (expandMiniscript testEnv dupMs true = .ok (str "and_v(v:pk(@0),pk(@1))", dupExpansion) ∧
      dupExpansion.map (fun kv => kv.2.key.pubkey) = [str "aa", str "aa"]) := by
  constructor
  · intro env ms isSegwit
    cases h : expandMiniscript env ms isSegwit with
    | ok r => exact Or.inl ⟨r, rfl⟩
    | error e =>
      obtain ⟨m, rfl⟩ := expandMiniscript_error_shape env ms isSegwit e h
      exact Or.inr ⟨m, rfl⟩
  · exact ⟨rfl, rfl⟩

lemma keys_jsAssign_self {α : Type} (m : List (Str × α)) (k : Str) (v : α) :
    k ∈ (jsAssign m k v).map (fun kv => kv.1) := by
  rw [jsAssign]
  split
  · rename_i hany
    obtain ⟨kv, hkv, he⟩ := List.any_eq_true.mp hany
    refine List.mem_map.mpr ⟨(k, v), List.mem_map.mpr ⟨kv, hkv, ?_⟩, rfl⟩
    simp [of_decide_eq_true he]
  · exact List.mem_map.mpr ⟨(k, v), by simp, rfl⟩

lemma keys_jsAssign_mono {α : Type} (m : List (Str × α)) (k : Str) (v : α)
    (k0 : Str) (h : k0 ∈ m.map (fun kv => kv.1)) :
    k0 ∈ (jsAssign m k v).map (fun kv => kv.1) := by
  rw [jsAssign]
  split
  · have hkeys : (m.map (fun kv => if kv.1 = k then (k, v) else kv)).map
        (fun kv => kv.1) = m.map (fun kv => kv.1) := by
      rw [List.map_map]
      apply List.map_congr_left
      intro kv _
      by_cases hc : kv.1 = k <;> simp [hc]
    rw [hkeys]; exact h
  · rw [List.map_append]; exact List.mem_append_left _ h

lemma keys_foldl_jsAssign_mono {α β : Type} (f : β → Str) (g : β → α)
    (l : List β) (base : List (Str × α)) (k0 : Str)
    (h : k0 ∈ base.map (fun kv => kv.1)) :
    k0 ∈ (l.foldl (fun acc b => jsAssign acc (f b) (g b)) base).map (fun kv => kv.1) := by
  induction l generalizing base with
  | nil => exact h
  | cons x xs ih => exact ih _ (keys_jsAssign_mono _ _ _ _ h)

lemma keys_foldl_jsAssign_of_mem {α β : Type} (f : β → Str) (g : β → α)
    (l : List β) (base : List (Str × α)) (b : β) (hb : b ∈ l) :
    f b ∈ (l.foldl (fun acc x => jsAssign acc (f x) (g x)) base).map (fun kv => kv.1) := by
  induction l generalizing base with
  | nil => cases hb
  | cons x xs ih =>
    cases List.mem_cons.mp hb with
    | inl hx =>
      subst hx
      exact keys_foldl_jsAssign_mono f g xs _ (f b) (keys_jsAssign_self _ _ _)
    | inr hx => exact ih _ hx

/-- C2 (amended): a signature whose pubkey matches no pubkey of the
expansion map is not dropped from the knowns table: JavaScript template
interpolation of the failed `find` turns its key into the literal
`<sig(undefined)>`, which every unmatched signature shares, so that key is
a member of the knowns passed to the satisfier (src/index.ts lines
321-333). -/
theorem claimC2_unmatched_signature_key (em : List (Str × ParsedKeyObj))
    (preimages : List Preimage) (signatures : List PartialSig) (s : PartialSig)
    (hs : s ∈ signatures)
    (hnm : ∀ kv ∈ em, kv.2.key.pubkey ≠ s.pubkey) :
    str "<sig(undefined)>" ∈ (buildKnownsMap em preimages signatures).map (fun kv => kv.1) := by
  have hfind : em.find? (fun kv => decide (kv.2.key.pubkey = s.pubkey)) = none :=
    List.find?_eq_none.mpr (by intro kv hkv; simpa using hnm kv hkv)
  have hkey : sigKeyOf em s = str "<sig(undefined)>" := by
    rw [sigKeyOf, hfind]; rfl
  have h1 : str "<sig(undefined)>" ∈ (signatureMapOf em signatures).map (fun kv => kv.1) := by
    rw [signatureMapOf, ← hkey]
    exact keys_foldl_jsAssign_of_mem _ _ signatures [] s hs
  rw [buildKnownsMap]
  obtain ⟨kv, hkv, hfst⟩ := List.mem_map.mp h1
  rw [← hfst]
  exact keys_foldl_jsAssign_of_mem (fun kv => kv.1) (fun kv => kv.2) _ _ kv hkv

/-- C2 (counterexample): a signature with pubkey bb, absent from an
expansion map holding only pubkey aa, contributes the knowns entry
`<sig(undefined)>` carrying the signature hex; the claim says it
contributes no entry. -/
theorem claimC2_counterexample :
    buildKnownsMap emX [] [sigX] = [(str "<sig(undefined)>", str "<cc>")] := rfl

/-- C2 (witness): the amended statement applied at the concrete unmatched
signature. -/
theorem claimC2_witness :
    str "<sig(undefined)>" ∈ (buildKnownsMap emX [] [sigX]).map (fun kv => kv.1) :=
  claimC2_unmatched_signature_key emX [] [sigX] sigX (by decide) (by decide)

/-- C3: finalizePsbtInput fails with the no-signatures error when the
input has no partialSig, and on a miniscript descriptor it finalizes with
the satisfaction-derived finalizer; but on a key-only (pkh) descriptor
whose input does carry partialSig it throws the no-miniscript error from
getScriptSatisfaction instead of falling through to the default
finalizer, because getScriptSatisfaction (src/index.ts line 756) throws
before the standard-finalizer branch of lines 862-864, which is
unreachable since a returned Buffer is never falsy. -/
theorem claimC3_keyOnly_finalize_throws :
    descriptorConstructor testEnv pkhParams = .ok pkhDescr ∧
    finalizePsbtInput testEnv pkhDescr 0 psbtNoSig = .error .noSignatures ∧
    finalizePsbtInput testEnv pkhDescr 0 psbtWithSig = .error .noMiniscript ∧
    descriptorConstructor testEnv wshParams = .ok wshDescr ∧
    getScriptSatisfaction testEnv wshDescr [⟨str "aa", str "55"⟩] = .ok [170, 172] ∧
    finalizePsbtInput testEnv wshDescr 0 psbtWithSig =
      .ok (testEnv.finalizeWithScript psbtWithSig 0 [170, 172]) :=
  ⟨rfl, rfl, rfl, rfl, rfl, rfl⟩

lemma selectSat_nil (constraints : Option Constraints) :
    selectSat [] constraints = .error .unresolvable := rfl

/-- C5 (amended): without constraints the first non-malleable satisfaction
is selected and the call fails with the unresolvable error exactly when
the list is empty; with constraints and a nonempty list, the first
satisfaction whose (nLockTime, nSequence) pair equals the constraints is
selected and the constraints-unmet error is raised when none matches; but
with constraints and an empty list the emptiness check of line 337 fires
first, so the error is the unresolvable one, not the constraints-unmet
one, and satisfyMiniscript propagates it. -/
theorem claimC5_selection (sats : List Sat) (c : Constraints) :
    (∀ s, selectSat sats none = .ok s ↔ sats.head? = some s) ∧
    (selectSat sats none = .error .unresolvable ↔ sats = []) ∧
    (sats ≠ [] →
      selectSat sats (some c) =
        (match sats.find? (fun s =>
            decide (s.nSequence = c.nSequence) && decide (s.nLockTime = c.nLockTime)) with
          | some s => Except.ok s
          | none => Except.error Err.constraintsUnmet)) ∧
    (selectSat [] (some c) = .error .unresolvable) ∧
    (∀ (env : Env) (ms : Str) (isSegwit : Bool) (signatures : List PartialSig)
        (preimages : List Preimage) (constraints : Option Constraints)
        (em : Str × List (Str × ParsedKeyObj)),
      expandMiniscript env ms isSegwit = .ok em →
      env.satisfier em.1 ((buildKnownsMap em.2 preimages signatures).map (fun kv => kv.1)) = [] →
      satisfyMiniscript env ms isSegwit signatures preimages constraints =
        .error .unresolvable) := by
  refine ⟨?_, ?_, ?_, rfl, ?_⟩
  · intro s
    cases sats with
    | nil => simp [selectSat]
    | cons a l => simp [selectSat]
  · cases sats with
    | nil => simp [selectSat]
    | cons a l => simp [selectSat]
  · intro hne
    cases sats with
    | nil => exact absurd rfl hne
    | cons a l => rfl
  · intro env ms isSegwit signatures preimages constraints em hem hnil
    obtain ⟨em1, em2⟩ := em
    rw [satisfyMiniscript, hem]
    dsimp only at hnil ⊢
    rw [hnil, selectSat_nil]

/-- C5 (counterexample): with constraints given and an empty non-malleable
list, satisfyMiniscript raises the unresolvable error of line 338, which
is a different failure mode than the constraints-unmet error of line 351
the claim requires. -/
theorem claimC5_counterexample :
    satisfyMiniscript emptySatEnv (str "pk(KEY1)") true [] [] (some ⟨some 5, some 6⟩) =
      .error .unresolvable ∧ Err.unresolvable ≠ Err.constraintsUnmet :=
  ⟨rfl, by decide⟩

/-- C5 (witness): the nonempty-with-constraints case applied at a concrete
satisfaction list whose pair does not match, yielding the constraints-unmet
error. -/
theorem claimC5_witness :
    selectSat [satX] (some conX) = .error .constraintsUnmet :=
  ((claimC5_selection [satX] conX).2.2.1 (by decide)).trans (by rfl)

/-- C7: isolate validates a trailing checksum suffix against the freshly
computed checksum of the prefix and fails on mismatch; fails when
checksumRequired is set and no suffix exists; strips a valid suffix; and
then, whenever the remaining expression contains a wildcard, fails unless
the index is a non-negative integer and otherwise replaces every star
with the decimal form of that index. -/
theorem claimC7_isolate (checksumFn : Str → Str) (e : Str) (req : Bool)
    (idx : JSNumber) :
    (reChecksumMatch e = none → req = true →
      isolate checksumFn e req idx = .error .noChecksum) ∧
    (∀ body chk, reChecksumMatch e = some (body, chk) → chk ≠ checksumFn body →
      isolate checksumFn e req idx = .error .badChecksum) ∧
    (∀ body chk, reChecksumMatch e = some (body, chk) → chk = checksumFn body →
      isolate checksumFn e req idx = wildcardStep body idx) ∧
    (reChecksumMatch e = none → req = false →
      isolate checksumFn e req idx = wildcardStep e idx) ∧
    (∀ body : Str, body.contains '*' = true → idx.failsIndexCheck = true →
      wildcardStep body idx = .error .invalidIndex) ∧
    (∀ (body : Str) (i : Int), body.contains '*' = true → idx = .int i → 0 ≤ i →
      wildcardStep body idx = .ok (strReplaceAll body (str "*") (toString i).toList)) ∧
    (∀ body : Str, body.contains '*' = false → wildcardStep body idx = .ok body) := by
  refine ⟨?_, ?_, ?_, ?_, ?_, ?_, ?_⟩
  · intro h1 h2
    simp only [isolate, h1, h2]
    rfl
  · intro body chk h1 h2
    simp only [isolate, h1, if_pos h2]
    rw [if_neg (by simp)]
  · intro body chk h1 h2
    simp only [isolate, h1]
    rw [if_neg (by simp), if_neg (by simp [h2])]
  · intro h1 h2
    simp only [isolate, h1, h2]
    rfl
  · intro body h1 h2
    simp only [wildcardStep, h1, h2]
    rfl
  · intro body i h1 h2 h3
    subst h2
    have hfails : (JSNumber.int i).failsIndexCheck = false := by
      simp [JSNumber.failsIndexCheck, decide_eq_false_iff_not]
      omega
    simp only [wildcardStep, h1, hfails]
    rfl
  · intro body h1
    simp only [wildcardStep, h1]
    rfl

/-- C7 (witness): the characterization applied to the ranged expression
wsh(star)#qqqqqqqq with checksumRequired set and index 3: the suffix
matches the computed checksum and the star is replaced by 3. -/
theorem claimC7_witness :
    isolate testEnv.checksum (str "wsh(*)#qqqqqqqq") true (.int 3) = .ok (str "wsh(3)") := by
  have h3 := (claimC7_isolate testEnv.checksum (str "wsh(*)#qqqqqqqq") true (.int 3)).2.2.1
    (str "wsh(*)") (str "qqqqqqqq") (by decide) (by decide)
  have h6 := (claimC7_isolate testEnv.checksum (str "wsh(*)#qqqqqqqq") true (.int 3)).2.2.2.2.2.1
    (str "wsh(*)") 3 (by decide) rfl (by decide)
  exact h3.trans (h6.trans (by rfl))

lemma addrBranch_inv (env : Env) (a : Str) (pre : List Preimage) (d : Descriptor)
    (h : addrBranch env a pre = .ok d) :
    d.preimages = pre ∧ d.miniscript = none ∧ d.witnessScript = none := by
  rw [addrBranch] at h
  split at h
  · exact absurd h (by simp)
  · simp only [Except.ok.injEq] at h
    subst h
    exact ⟨rfl, rfl, rfl⟩

lemma keyOnlyBranch_inv (env : Env) (ie : Str) (ke : Option Str)
    (pre : List Preimage) (sw : Bool) (a b c : Str) (mk : Str → Payment)
    (d : Descriptor) (h : keyOnlyBranch env ie ke pre sw a b c mk = .ok d) :
    d.preimages = pre ∧ d.miniscript = none ∧ d.witnessScript = none := by
  unfold keyOnlyBranch at h
  split at h
  · exact absurd h (by simp)
  · split at h
    · exact absurd h (by simp)
    · split at h
      · exact absurd h (by simp)
      · simp only [Except.ok.injEq] at h
        subst h
        exact ⟨rfl, rfl, rfl⟩

lemma shPipeline_inv (env : Env) (ms : Str) (pre : List Preimage)
    (sg : Option (List Str)) (d : Descriptor)
    (h : shPipeline env ms pre sg = .ok d) :
    d.preimages = pre ∧ d.miniscript = some ms ∧ d.isSegwit = some false ∧
    d.witnessScript = none ∧
    miniscriptConstraints env pre sg ms false = .ok (d.nLockTime, d.nSequence) ∧
    ∃ script, d.payment = .p2sh script ∧ script.length ≤ 520 ∧
      ∃ n, countNonPushOnlyOPs env script = .ok n ∧ n ≤ 201 := by
  rw [shPipeline] at h
  split at h
  · exact absurd h (by simp)
  · split at h
    · exact absurd h (by simp)
    · rename_i script hm2s
      split at h
      · exact absurd h (by simp)
      · rename_i hsize
        split at h
        · exact absurd h (by simp)
        · rename_i n hops
          split at h
          · exact absurd h (by simp)
          · rename_i hople
            split at h
            · exact absurd h (by simp)
            · rename_i lt sq hprobe
              simp only [Except.ok.injEq] at h
              subst h
              exact ⟨rfl, rfl, rfl, rfl, hprobe,
                script, rfl, by omega, n, hops, by omega⟩

lemma shBranch_inv (env : Env) (allow : Bool) (ms : Str) (pre : List Preimage)
    (sg : Option (List Str)) (d : Descriptor)
    (h : shBranch env allow ms pre sg = .ok d) :
    d.preimages = pre ∧ d.miniscript = some ms ∧ d.isSegwit = some false ∧
    d.witnessScript = none ∧
    miniscriptConstraints env pre sg ms false = .ok (d.nLockTime, d.nSequence) ∧
    ∃ script, d.payment = .p2sh script ∧ script.length ≤ 520 ∧
      ∃ n, countNonPushOnlyOPs env script = .ok n ∧ n ≤ 201 := by
  rw [shBranch] at h
  split at h
  · exact absurd h (by simp)
  · split at h
    · exact absurd h (by simp)
    · exact shPipeline_inv env ms pre sg d h

lemma wshBranch_inv (env : Env) (ms : Str) (pre : List Preimage)
    (sg : Option (List Str)) (d : Descriptor)
    (h : wshBranch env ms pre sg = .ok d) :
    d.preimages = pre ∧ d.miniscript = some ms ∧ d.isSegwit = some true ∧
    miniscriptConstraints env pre sg ms true = .ok (d.nLockTime, d.nSequence) ∧
    ∃ script, d.witnessScript = some script ∧ d.payment = .p2wsh script ∧
      script.length ≤ 3600 ∧
      ∃ n, countNonPushOnlyOPs env script = .ok n ∧ n ≤ 201 := by
  rw [wshBranch] at h
  split at h
  · exact absurd h (by simp)
  · split at h
    · exact absurd h (by simp)
    · split at h
      · exact absurd h (by simp)
      · rename_i script hm2s
        split at h
        · exact absurd h (by simp)
        · rename_i hsize
          split at h
          · exact absurd h (by simp)
          · rename_i n hops
            split at h
            · exact absurd h (by simp)
            · rename_i hople
              split at h
              · exact absurd h (by simp)
              · rename_i lt sq hprobe
                simp only [Except.ok.injEq] at h
                subst h
                exact ⟨rfl, rfl, rfl, hprobe,
                  script, rfl, rfl, by omega, n, hops, by omega⟩

lemma shWshBranch_inv (env : Env) (ms : Str) (pre : List Preimage)
    (sg : Option (List Str)) (d : Descriptor)
    (h : shWshBranch env ms pre sg = .ok d) :
    d.preimages = pre ∧ d.miniscript = some ms ∧ d.isSegwit = some true ∧
    miniscriptConstraints env pre sg ms true = .ok (d.nLockTime, d.nSequence) ∧
    ∃ script, d.witnessScript = some script ∧ d.payment = .p2shWsh script ∧
      script.length ≤ 3600 ∧
      ∃ n, countNonPushOnlyOPs env script = .ok n ∧ n ≤ 201 := by
  rw [shWshBranch] at h
  split at h
  · exact absurd h (by simp)
  · split at h
    · exact absurd h (by simp)
    · split at h
      · exact absurd h (by simp)
      · rename_i script hm2s
        split at h
        · exact absurd h (by simp)
        · rename_i hsize
          split at h
          · exact absurd h (by simp)
          · rename_i n hops
            split at h
            · exact absurd h (by simp)
            · rename_i hople
              split at h
              · exact absurd h (by simp)
              · rename_i lt sq hprobe
                simp only [Except.ok.injEq] at h
                subst h
                exact ⟨rfl, rfl, rfl, hprobe,
                  script, rfl, rfl, by omega, n, hops, by omega⟩

/-- Invariants of every successfully constructed instance, read off the
dispatch and the branch invariants. -/
lemma constructor_inv (env : Env) (p : ConstructorParams) (d : Descriptor)
    (h : descriptorConstructor env p = .ok d) :
    d.preimages = p.preimages ∧
    (∀ s, d.witnessScript = some s →
      s.length ≤ 3600 ∧ ∃ n, countNonPushOnlyOPs env s = .ok n ∧ n ≤ 201) ∧
    (∀ ms s, d.miniscript = some ms → d.isSegwit = some false →
      d.payment = .p2sh s →
      s.length ≤ 520 ∧ ∃ n, countNonPushOnlyOPs env s = .ok n ∧ n ≤ 201) ∧
    (∀ ms, d.miniscript = some ms → ∃ sw, d.isSegwit = some sw ∧
      miniscriptConstraints env p.preimages p.signersKeyExpressions ms sw =
        .ok (d.nLockTime, d.nSequence)) := by
  rw [descriptorConstructor] at h
  split at h
  · exact absurd h (by simp)
  · dsimp only at h
    split at h
    · -- addr branch
      obtain ⟨h1, h2, h3⟩ := addrBranch_inv _ _ _ _ h
      exact ⟨h1, fun s hs => absurd hs (by simp [h3]),
        fun ms s hms => absurd hms (by simp [h2]),
        fun ms hms => absurd hms (by simp [h2])⟩
    · split at h
      · obtain ⟨h1, h2, h3⟩ := keyOnlyBranch_inv _ _ _ _ _ _ _ _ _ _ h
        exact ⟨h1, fun s hs => absurd hs (by simp [h3]),
          fun ms s hms => absurd hms (by simp [h2]),
          fun ms hms => absurd hms (by simp [h2])⟩
      · split at h
        · obtain ⟨h1, h2, h3⟩ := keyOnlyBranch_inv _ _ _ _ _ _ _ _ _ _ h
          exact ⟨h1, fun s hs => absurd hs (by simp [h3]),
            fun ms s hms => absurd hms (by simp [h2]),
            fun ms hms => absurd hms (by simp [h2])⟩
        · split at h
          · obtain ⟨h1, h2, h3⟩ := keyOnlyBranch_inv _ _ _ _ _ _ _ _ _ _ h
            exact ⟨h1, fun s hs => absurd hs (by simp [h3]),
              fun ms s hms => absurd hms (by simp [h2]),
              fun ms hms => absurd hms (by simp [h2])⟩
          · split at h
            · obtain ⟨h1, h2, h3⟩ := keyOnlyBranch_inv _ _ _ _ _ _ _ _ _ _ h
              exact ⟨h1, fun s hs => absurd hs (by simp [h3]),
                fun ms s hms => absurd hms (by simp [h2]),
                fun ms hms => absurd hms (by simp [h2])⟩
            · split at h
              · -- sh(wsh(MS))
                rename_i ms0 hm
                obtain ⟨h1, h2, h3, h4, script, h5, h6, h7, n, h8, h9⟩ :=
                  shWshBranch_inv _ _ _ _ _ h
                refine ⟨h1, ?_, ?_, ?_⟩
                · intro s hs
                  rw [h5] at hs
                  injection hs with hs
                  subst hs
                  exact ⟨h7, n, h8, h9⟩
                · intro ms s hms hsw
                  rw [h3] at hsw
                  simp at hsw
                · intro ms hms
                  rw [h2] at hms
                  injection hms with hms
                  subst hms
                  exact ⟨true, h3, h4⟩
              · split at h
                · -- sh(MS)
                  rename_i ms0 hm
                  obtain ⟨h1, h2, h3, h4, h5, script, h6, h7, n, h8, h9⟩ :=
                    shBranch_inv _ _ _ _ _ _ h
                  refine ⟨h1, ?_, ?_, ?_⟩
                  · intro s hs
                    rw [h4] at hs
                    simp at hs
                  · intro ms s hms hsw hpay
                    rw [h6] at hpay
                    injection hpay with hpay
                    subst hpay
                    exact ⟨h7, n, h8, h9⟩
                  · intro ms hms
                    rw [h2] at hms
                    injection hms with hms
                    subst hms
                    exact ⟨false, h3, h5⟩
                · split at h
                  · -- wsh(MS)
                    rename_i ms0 hm
                    obtain ⟨h1, h2, h3, h4, script, h5, h6, h7, n, h8, h9⟩ :=
                      wshBranch_inv _ _ _ _ _ h
                    refine ⟨h1, ?_, ?_, ?_⟩
                    · intro s hs
                      rw [h5] at hs
                      injection hs with hs
                      subst hs
                      exact ⟨h7, n, h8, h9⟩
                    · intro ms s hms hsw
                      rw [h3] at hsw
                      simp at hsw
                    · intro ms hms
                      rw [h2] at hms
                      injection hms with hms
                      subst hms
                      exact ⟨true, h3, h4⟩
                  · exact absurd h (by simp)

/-- C4 (amended): the constructor does not validate preimages.  Every
successfully constructed instance stores the preimage list verbatim
(src/index.ts line 423 is a plain assignment), and no code path inspects
the digest for the four accepted hash functions or the hex-length rules:
those live only in the comments of the Preimage interface (lines 41-46). -/
theorem claimC4_preimages_stored_unvalidated (env : Env)
    (p : ConstructorParams) (d : Descriptor)
    (h : descriptorConstructor env p = .ok d) :
    d.preimages = p.preimages :=
  (constructor_inv env p d h).1

/-- C4 (counterexample): a preimage whose digest uses an unknown hash
function and whose payload violates every stated length rule is accepted
by the constructor and stored as-is; the claim says such a preimage is
rejected at construction time. -/
theorem claimC4_counterexample :
    descriptorConstructor testEnv badPreParams =
      .ok { pkhDescr with preimages := [badPreimage] } := rfl

/-- C4 (witness): the amended statement applied to the ill-formed
preimage accepted above. -/
theorem claimC4_witness :
    ({ pkhDescr with preimages := [badPreimage] } : Descriptor).preimages =
      badPreParams.preimages :=
  claimC4_preimages_stored_unvalidated testEnv badPreParams _ rfl

/-- C6: resource limits of successfully constructed miniscript shapes:
every stored witness script (the wsh- and sh(wsh)-backed shapes) is at
most 3600 bytes, a bare sh(MS) script is at most 520 bytes, and in both
cases the count of non-push opcodes as computed by countNonPushOnlyOPs is
at most 201 — the constructor throws otherwise (src/index.ts lines
565-576, 621-631, 660-670). -/
theorem claimC6_resource_limits (env : Env) (p : ConstructorParams)
    (d : Descriptor) (h : descriptorConstructor env p = .ok d) :
    (∀ s, d.witnessScript = some s →
      s.length ≤ 3600 ∧ ∃ n, countNonPushOnlyOPs env s = .ok n ∧ n ≤ 201) ∧
    (∀ ms s, d.miniscript = some ms → d.isSegwit = some false →
      d.payment = .p2sh s →
      s.length ≤ 520 ∧ ∃ n, countNonPushOnlyOPs env s = .ok n ∧ n ≤ 201) :=
  ⟨(constructor_inv env p d h).2.1, (constructor_inv env p d h).2.2.1⟩

/-- C6 (witness): the limits theorem applied to the constructed
wsh(pk(KEY1)) instance and its 2-byte witness script. -/
theorem claimC6_witness :
    descriptorConstructor testEnv wshParams = .ok wshDescr ∧
    ([170, 172] : List Nat).length ≤ 3600 ∧
    ∃ n, countNonPushOnlyOPs testEnv [170, 172] = .ok n ∧ n ≤ 201 :=
  ⟨rfl, ((claimC6_resource_limits testEnv wshParams wshDescr rfl).1 [170, 172] rfl).1,
    ((claimC6_resource_limits testEnv wshParams wshDescr rfl).1 [170, 172] rfl).2⟩

lemma miniscriptConstraints_inv (env : Env) (pre : List Preimage)
    (sg : Option (List Str)) (ms : Str) (sw : Bool) (lt sq : Option Nat)
    (h : miniscriptConstraints env pre sg ms sw = .ok (lt, sq)) :
    ∃ signers fakeSignatures r,
      resolvedSigners env sg ms sw = .ok signers ∧
      parseFakeSigs env signers sw = .ok fakeSignatures ∧
      satisfyMiniscript env ms sw fakeSignatures pre none = .ok r ∧
      r.nLockTime = lt ∧ r.nSequence = sq := by
  rw [miniscriptConstraints] at h
  split at h
  · exact absurd h (by simp)
  · rename_i signers hsg
    split at h
    · exact absurd h (by simp)
    · rename_i fs hfs
      split at h
      · exact absurd h (by simp)
      · rename_i r hr
        simp only [Except.ok.injEq, Prod.mk.injEq] at h
        exact ⟨signers, fs, r, hsg, hfs, hr, h.1, h.2⟩

lemma parseFakeSigs_all_zero (env : Env) :
    ∀ (l : List Str) (sw : Bool) (fs : List PartialSig),
      parseFakeSigs env l sw = .ok fs → ∀ f ∈ fs, f.signature = zeroSig64 := by
  intro l
  induction l with
  | nil =>
    intro sw fs h f hf
    rw [parseFakeSigs] at h
    simp only [Except.ok.injEq] at h
    subst h
    cases hf
  | cons ke rest ih =>
    intro sw fs h f hf
    rw [parseFakeSigs] at h
    split at h
    · exact absurd h (by simp)
    · rename_i k hk
      split at h
      · exact absurd h (by simp)
      · rename_i l2 hl2
        simp only [Except.ok.injEq] at h
        subst h
        cases List.mem_cons.mp hf with
        | inl hx => subst hx; rfl
        | inr hx => exact ih sw l2 hl2 f hx

lemma satisfyMiniscript_ok_satisfier_ne_nil (env : Env) (ms : Str) (sw : Bool)
    (sigs : List PartialSig) (pre : List Preimage) (c : Option Constraints)
    (r : SatisfyResult) (em : Str × List (Str × ParsedKeyObj))
    (h : satisfyMiniscript env ms sw sigs pre c = .ok r)
    (hem : expandMiniscript env ms sw = .ok em) :
    env.satisfier em.1 ((buildKnownsMap em.2 pre sigs).map (fun kv => kv.1)) ≠ [] := by
  intro hnil
  obtain ⟨em1, em2⟩ := em
  rw [satisfyMiniscript, hem] at h
  dsimp only at h hnil
  rw [hnil, selectSat_nil] at h
  simp at h

/-- C10: every miniscript-bearing shape ends construction with the
satisfier probe (src/index.ts lines 704-740): the signer set (defaulting
to all pubkeys of a fresh expansion) is turned into synthesized 64-byte
all-zero signatures, satisfyMiniscript runs on them plus the given
preimages without constraints, its nLockTime/nSequence are cached on the
instance, and the underlying non-malleable satisfaction list is nonempty —
so when the probe finds no satisfaction the constructor throws and no
instance (hence no getAddress/getScriptPubKey call on it) exists. -/
theorem claimC10_constructor_probe (env : Env) (p : ConstructorParams)
    (d : Descriptor) (ms : Str) (h : descriptorConstructor env p = .ok d)
    (hms : d.miniscript = some ms) :
    ∃ isSegwit, d.isSegwit = some isSegwit ∧
      miniscriptConstraints env p.preimages p.signersKeyExpressions ms isSegwit =
        .ok (d.nLockTime, d.nSequence) ∧
      ∃ signers fakeSignatures r,
        resolvedSigners env p.signersKeyExpressions ms isSegwit = .ok signers ∧
        parseFakeSigs env signers isSegwit = .ok fakeSignatures ∧
        (∀ f ∈ fakeSignatures, f.signature = zeroSig64) ∧
        satisfyMiniscript env ms isSegwit fakeSignatures p.preimages none = .ok r ∧
        r.nLockTime = d.nLockTime ∧ r.nSequence = d.nSequence ∧
        (∀ em, expandMiniscript env ms isSegwit = .ok em →
          env.satisfier em.1
            ((buildKnownsMap em.2 p.preimages fakeSignatures).map (fun kv => kv.1)) ≠ []) := by
  obtain ⟨sw, hsw, hmc⟩ := (constructor_inv env p d h).2.2.2 ms hms
  obtain ⟨signers, fs, r, hsg, hfs, hr, hlt, hsq⟩ :=
    miniscriptConstraints_inv env p.preimages p.signersKeyExpressions ms sw
      d.nLockTime d.nSequence hmc
  exact ⟨sw, hsw, hmc, signers, fs, r, hsg, hfs,
    parseFakeSigs_all_zero env signers sw fs hfs, hr, hlt, hsq,
    fun em hem => satisfyMiniscript_ok_satisfier_ne_nil env ms sw fs
      p.preimages none r em hr hem⟩

/-- C10 (witness): the probe theorem applied to the constructed
wsh(pk(KEY1)) instance. -/
theorem claimC10_witness :
    ∃ isSegwit, wshDescr.isSegwit = some isSegwit ∧
      miniscriptConstraints testEnv wshParams.preimages
        wshParams.signersKeyExpressions (str "pk(KEY1)") isSegwit =
        .ok (wshDescr.nLockTime, wshDescr.nSequence) ∧
      ∃ signers fakeSignatures r,
        resolvedSigners testEnv wshParams.signersKeyExpressions
          (str "pk(KEY1)") isSegwit = .ok signers ∧
        parseFakeSigs testEnv signers isSegwit = .ok fakeSignatures ∧
        (∀ f ∈ fakeSignatures, f.signature = zeroSig64) ∧
        satisfyMiniscript testEnv (str "pk(KEY1)") isSegwit fakeSignatures
          wshParams.preimages none = .ok r ∧
        r.nLockTime = wshDescr.nLockTime ∧ r.nSequence = wshDescr.nSequence ∧
        (∀ em, expandMiniscript testEnv (str "pk(KEY1)") isSegwit = .ok em →
          testEnv.satisfier em.1
            ((buildKnownsMap em.2 wshParams.preimages fakeSignatures).map
              (fun kv => kv.1)) ≠ []) :=
  claimC10_constructor_probe testEnv wshParams wshDescr (str "pk(KEY1)") rfl rfl

lemma isPrefixOf_self_append (l r : Str) : l.isPrefixOf (l ++ r) = true := by
  induction l with
  | nil => simp [List.isPrefixOf]
  | cons a as ih => simp [List.isPrefixOf, ih]

lemma isSuffixOf_append_self (l r : Str) : r.isSuffixOf (l ++ r) = true := by
  simp only [List.isSuffixOf, List.reverse_append]
  exact isPrefixOf_self_append r.reverse l.reverse

lemma matchInner_append (pre mid post : Str) :
    matchInner pre post (pre ++ (mid ++ post)) = some mid := by
  have h1 : strStartsWith (pre ++ (mid ++ post)) pre = true :=
    isPrefixOf_self_append pre (mid ++ post)
  have h2 : strEndsWith (pre ++ (mid ++ post)) post = true := by
    rw [strEndsWith, ← List.append_assoc]
    exact isSuffixOf_append_self (pre ++ mid) post
  have h3 : pre.length + post.length ≤ (pre ++ (mid ++ post)).length := by
    simp [List.length_append]
  have h4 : (pre ++ (mid ++ post)).length - pre.length - post.length = mid.length := by
    simp [List.length_append]
  rw [matchInner, h1, h2, decide_eq_true h3, List.drop_left, h4, List.take_left]
  rfl

lemma matchInner_none_left (pre post e : Str) (h : strStartsWith e pre = false) :
    matchInner pre post e = none := by
  rw [matchInner, h]
  rfl

lemma matchKeyForm_false (env : Env) (pre post e : Str)
    (h : matchInner pre post e = none) : matchKeyForm env pre post e = false := by
  rw [matchKeyForm, h]

/-- Dispatch: an isolated expression of the form sh(MS), where MS does not
begin with wpkh( or wsh(, reaches the sh(MS) branch. -/
lemma constructor_dispatch_sh (env : Env) (p : ConstructorParams) (ms : Str)
    (hiso : isolate env.checksum p.expression p.checksumRequired p.index =
      .ok (str "sh(" ++ (ms ++ str ")")))
    (h1 : strStartsWith (ms ++ str ")") (str "wpkh(") = false)
    (h2 : strStartsWith (ms ++ str ")") (str "wsh(") = false) :
    descriptorConstructor env p =
      shBranch env p.allowMiniscriptInP2SH ms p.preimages p.signersKeyExpressions := by
  have haddr : matchInner (str "addr(") (str ")") (str "sh(" ++ (ms ++ str ")")) = none :=
    matchInner_none_left _ _ _ rfl
  have hpk : matchKeyForm env (str "pk(") (str ")") (str "sh(" ++ (ms ++ str ")")) = false :=
    matchKeyForm_false _ _ _ _ (matchInner_none_left _ _ _ rfl)
  have hpkh : matchKeyForm env (str "pkh(") (str ")") (str "sh(" ++ (ms ++ str ")")) = false :=
    matchKeyForm_false _ _ _ _ (matchInner_none_left _ _ _ rfl)
  have hshwpkh : matchKeyForm env (str "sh(wpkh(") (str "))") (str "sh(" ++ (ms ++ str ")")) = false :=
    matchKeyForm_false _ _ _ _ (matchInner_none_left _ _ _ h1)
  have hwpkh : matchKeyForm env (str "wpkh(") (str ")") (str "sh(" ++ (ms ++ str ")")) = false :=
    matchKeyForm_false _ _ _ _ (matchInner_none_left _ _ _ rfl)
  have hshwsh : matchInner (str "sh(wsh(") (str "))") (str "sh(" ++ (ms ++ str ")")) = none :=
    matchInner_none_left _ _ _ h2
  have hsh : matchInner (str "sh(") (str ")") (str "sh(" ++ (ms ++ str ")")) = some ms :=
    matchInner_append _ _ _
  rw [descriptorConstructor, hiso]
  dsimp only
  rw [haddr, hpk, hpkh, hshwpkh, hwpkh, hshwsh, hsh]
  rfl

/-- C8: in the sh(MS) branch, with allowMiniscriptInP2SH unset the
constructor fails with the miniscript-in-P2SH error exactly when the inner
expression does not begin with one of the eight template keywords
pk( pkh( wpkh( combo( multi( sortedmulti( multi_a( sortedmulti_a(
(src/index.ts lines 591-603); with the flag set the template gate is
skipped entirely and any miniscript proceeds to the bare-sh compilation
pipeline. -/
theorem claimC8_sh_template_gate (env : Env) (p : ConstructorParams) (ms : Str)
    (hiso : isolate env.checksum p.expression p.checksumRequired p.index =
      .ok (str "sh(" ++ (ms ++ str ")")))
    (h1 : strStartsWith (ms ++ str ")") (str "wpkh(") = false)
    (h2 : strStartsWith (ms ++ str ")") (str "wsh(") = false)
    (hne : ms ≠ []) :
    (p.allowMiniscriptInP2SH = false → startsWithTemplate ms = false →
      descriptorConstructor env p = .error .miniscriptInP2SH) ∧
    (p.allowMiniscriptInP2SH = false → startsWithTemplate ms = true →
      descriptorConstructor env p =
        shPipeline env ms p.preimages p.signersKeyExpressions) ∧
    (p.allowMiniscriptInP2SH = true →
      descriptorConstructor env p =
        shPipeline env ms p.preimages p.signersKeyExpressions) := by
  have hd := constructor_dispatch_sh env p ms hiso h1 h2
  refine ⟨?_, ?_, ?_⟩
  · intro ha hb
    rw [hd, shBranch, if_neg hne, if_pos (by simp [ha, hb])]
  · intro ha hb
    rw [hd, shBranch, if_neg hne, if_neg (by simp [hb])]
  · intro ha
    rw [hd, shBranch, if_neg hne, if_neg (by simp [ha])]

/-- C8 (witness): the template gate applied to sh(xyz) with the flag
unset: construction fails with the miniscript-in-P2SH error. -/
theorem claimC8_witness :
    descriptorConstructor testEnv shParams = .error .miniscriptInP2SH :=
  (claimC8_sh_template_gate testEnv shParams (str "xyz") rfl rfl rfl
    (by decide)).1 rfl rfl

/-- C9: updatePsbt fails with the no-such-output error when the parsed
transaction has no output at vout; with a cached nLockTime it fails with
the locktime-conflict error when the Psbt locktime is already a nonzero
value and otherwise sets the Psbt locktime to the cached value; the
appended input carries the sequence of sequenceRule (the cached nSequence
if present, else 0xfffffffe when an nLockTime is cached, else absent); and
the call returns the index of the newly appended input. -/
theorem claimC9_updatePsbt (env : Env) (d : Descriptor) (txHex : Str)
    (vout : Nat) (psbt : Psbt) :
    (∀ tx, env.parseTx txHex = .ok tx → tx.outs.get? vout = none →
      updatePsbt env d txHex vout psbt = .error .noSuchOutput) ∧
    (∀ tx out k, env.parseTx txHex = .ok tx → tx.outs.get? vout = some out →
      d.nLockTime.isSome = true → psbt.locktime = some k → k ≠ 0 →
      updatePsbt env d txHex vout psbt = .error .locktimeConflict) ∧
    (∀ r, updatePsbt env d txHex vout psbt = .ok r →
      (∀ lt, d.nLockTime = some lt → r.1.locktime = some lt) ∧
      (d.nLockTime = none → r.1.locktime = psbt.locktime) ∧
      ∃ inp, r.1.inputs = psbt.inputs ++ [inp] ∧ inp.sequence = sequenceRule d ∧
        r.2 = psbt.inputs.length) := by
  refine ⟨?_, ?_, ?_⟩
  · intro tx h1 h2
    rw [updatePsbt, h1]
    dsimp only
    rw [h2]
  · intro tx out k h1 h2 hsome hlk hk0
    obtain ⟨lt, hlt⟩ := Option.isSome_iff_exists.mp hsome
    have hc : ((some k : Option Nat) ≠ some 0 ∧ (some k : Option Nat) ≠ none) :=
      ⟨by simp [hk0], by simp⟩
    rw [updatePsbt, h1]
    dsimp only
    rw [h2]
    dsimp only
    rw [hlt]
    dsimp only
    rw [hlk, if_pos hc]
  · intro r h
    cases hp : env.parseTx txHex with
    | error m => rw [updatePsbt, hp] at h; exact absurd h (by simp)
    | ok tx =>
      rw [updatePsbt, hp] at h
      dsimp only at h
      cases ho : tx.outs.get? vout with
      | none => rw [ho] at h; exact absurd h (by simp)
      | some out =>
        rw [ho] at h
        dsimp only at h
        split at h
        · exact absurd h (by simp)
        · rename_i psbt1 heq1
          split at h
          · exact absurd h (by simp)
          · rename_i wu heq2
            simp only [Except.ok.injEq] at h
            subst h
            have hinputs : psbt1.inputs = psbt.inputs ∧
                (∀ lt, d.nLockTime = some lt → psbt1.locktime = some lt) ∧
                (d.nLockTime = none → psbt1.locktime = psbt.locktime) := by
              cases hnl : d.nLockTime with
              | none =>
                rw [hnl] at heq1
                dsimp only at heq1
                simp only [Except.ok.injEq] at heq1
                subst heq1
                exact ⟨rfl, fun lt h2 => by simp at h2, fun h2 => rfl⟩
              | some lt0 =>
                rw [hnl] at heq1
                dsimp only at heq1
                split at heq1
                · exact absurd heq1 (by simp)
                · simp only [Except.ok.injEq] at heq1
                  subst heq1
                  refine ⟨rfl, fun lt h2 => ?_, fun h2 => by simp at h2⟩
                  injection h2 with h2
                  subst h2
                  rfl
            refine ⟨hinputs.2.1, hinputs.2.2,
              ⟨{ hash := tx.hash, index := vout, nonWitnessUtxo := tx.raw,
                 bip32Derivation := bip32DerivationOf d, witnessUtxo := wu,
                 witnessScript := d.witnessScript, sequence := sequenceRule d,
                 partialSig := none }, ?_, rfl, ?_⟩⟩
            · show psbt1.inputs ++ [_] = psbt.inputs ++ [_]
              rw [hinputs.1]
            · show (psbt1.inputs ++ [_]).length - 1 = psbt.inputs.length
              rw [hinputs.1]
              simp

/-- C9 (witness): the success characterization applied to a pkh-shaped
instance with a cached nLockTime of 500000 and a fresh PSBT: the locktime
is set, the appended input carries sequence 0xfffffffe, and the returned
index is 0. -/
theorem claimC9_witness :
    updatePsbt testEnv lockDescr (str "aabb") 1 emptyPsbt = .ok lockResult ∧
    ((∀ lt, lockDescr.nLockTime = some lt → lockResult.1.locktime = some lt) ∧
      (lockDescr.nLockTime = none → lockResult.1.locktime = emptyPsbt.locktime) ∧
      ∃ inp, lockResult.1.inputs = emptyPsbt.inputs ++ [inp] ∧
        inp.sequence = sequenceRule lockDescr ∧
        lockResult.2 = emptyPsbt.inputs.length) :=
  ⟨rfl, (claimC9_updatePsbt testEnv lockDescr (str "aabb") 1 emptyPsbt).2.2
    lockResult rfl⟩
